import Mathlib

/-!
Shallow embedding of `src/main.c` (repository SSCA).

C `int` values are modelled as mathematical integers together with an
explicit twos-complement wrap at 32 bits (`wrap32`), applied wherever the
C code performs an arithmetic operation on `int`.  Loops are embedded as
structural recursions whose fuel is the exact trip count of the loop,
keeping the loop test from the source.
-/

set_option maxRecDepth 8000

namespace SSCA

/-- Twos-complement wrap of an integer into the 32-bit signed range
`[-2147483648, 2147483648)`. -/
def wrap32 (z : Int) : Int :=
  (z + 2147483648) % 4294967296 - 2147483648

/-- C: `int add(int a, int b) { return a + b; }` -/
def add (a b : Int) : Int := wrap32 (a + b)

/-- C: `int multiply(int a, int b) { return a * b; }` -/
def multiply (a b : Int) : Int := wrap32 (a * b)

/-- C: `int square(int x) { return multiply(x, x); }` -/
def square (x : Int) : Int := multiply x x

/-- Loop of `compute_series`: `for (int i = 0; i < n; i++) sum = add(sum, square(i));`.
The `fuel` argument is an upper bound on the remaining iterations; the
loop test `i < n` is kept from the source. -/
def series_go (fuel : Nat) (n i sum : Int) : Int :=
  match fuel with
  | 0 => sum
  | fuel + 1 => if i < n then series_go fuel n (i + 1) (add sum (square i)) else sum

/-- C: `int compute_series(int n)` — iterative sum of `square(i)` for `i = 0 .. n-1`. -/
def compute_series (n : Int) : Int := series_go n.toNat n 0 0

/-- Loop of `compute_product`: `for (int i = 1; i <= n; i++) prod = multiply(prod, i);`. -/
def product_go (fuel : Nat) (n i prod : Int) : Int :=
  match fuel with
  | 0 => prod
  | fuel + 1 => if i ≤ n then product_go fuel n (i + 1) (multiply prod i) else prod

/-- C: `int compute_product(int n)` — iterative product of `1 .. n`. -/
def compute_product (n : Int) : Int := product_go n.toNat n 1 1

/-- C: `int helper_A(int x) { return add(x, 10); }` -/
def helper_A (x : Int) : Int := add x 10

/-- C: `int helper_B(int x) { return helper_A(x) + square(x); }` (raw `int` addition). -/
def helper_B (x : Int) : Int := wrap32 (helper_A x + square x)

/-- C: `int process(int mode, int value)` — three-way dispatch on `mode`. -/
def process (mode value : Int) : Int :=
  if mode = 0 then compute_series value
  else if mode = 1 then compute_product value
  else helper_B value

mutual

/-- C: `int cycle_1(int x) { if (x <= 0) return x; return cycle_2(x - 1); }` -/
def cycle_1 (x : Int) : Int :=
  if x ≤ 0 then x else cycle_2 (x - 1)
termination_by 2 * x.toNat

/-- C: `int cycle_2(int x) { return cycle_1(x - 1); }` -/
def cycle_2 (x : Int) : Int :=
  cycle_1 (x - 1)
termination_by 2 * x.toNat + 1

end

/-- C: `int unused_function(int x) { return x * 42; }` (dead code). -/
def unused_function (x : Int) : Int := wrap32 (x * 42)

/-- In `main`: `int result1 = process(0, 1000);` -/
def result1 : Int := process 0 1000

/-- In `main`: `int result2 = process(1, 10);` -/
def result2 : Int := process 1 10

/-- In `main`: `int result3 = process(2, 5);` -/
def result3 : Int := process 2 5

/-- The single line `main` writes to standard output:
`printf("%d %d %d\n", result1, result2, result3);` -/
def main_output : String :=
  toString result1 ++ " " ++ toString result2 ++ " " ++ toString result3 ++ "\n"

/-- Exit status of `main`: `return 0;` -/
def main_exit : Int := 0

mutual

/-- Fuel-indexed (step-counting) semantics of `cycle_1`: `none` means the
fuel ran out before the recursion reached its base case. -/
def cycle1Fuel : Nat → Int → Option Int
  | 0, _ => none
  | fuel + 1, x => if x ≤ 0 then some x else cycle2Fuel fuel (x - 1)

/-- Fuel-indexed semantics of `cycle_2`. -/
def cycle2Fuel : Nat → Int → Option Int
  | 0, _ => none
  | fuel + 1, x => cycle1Fuel fuel (x - 1)

end

/-! ### Arithmetic lemmas about the 32-bit wrap -/

lemma wrap32_lb (z : Int) : -2147483648 ≤ wrap32 z := by
  unfold wrap32; omega

lemma wrap32_ub (z : Int) : wrap32 z < 2147483648 := by
  unfold wrap32; omega

lemma wrap32_sub_emod (z : Int) : (wrap32 z - z) % 4294967296 = 0 := by
  unfold wrap32; omega

lemma wrap32_eq_self (z : Int) (h1 : -2147483648 ≤ z) (h2 : z < 2147483648) :
    wrap32 z = z := by
  unfold wrap32; omega

lemma wrap32_add_wrap32 (a b : Int) :
    wrap32 (wrap32 a + wrap32 b) = wrap32 (a + b) := by
  unfold wrap32; omega

/-! ### The series loop: splitting and fold characterisation -/

lemma series_go_split (a b : Nat) (n i sum : Int) (h : i + (a : Int) ≤ n) :
    series_go (a + b) n i sum = series_go b n (i + (a : Int)) (series_go a n i sum) := by
  induction a generalizing i sum with
  | zero => simp [series_go]
  | succ a ih =>
      have hi : i < n := by push_cast at h; omega
      have h2 : (i + 1) + (a : Int) ≤ n := by push_cast at h ⊢; omega
      have e1 : a + 1 + b = (a + b) + 1 := by omega
      rw [e1]
      simp only [series_go, if_pos hi]
      rw [ih (i + 1) (add sum (square i)) h2]
      have e2 : i + 1 + (a : Int) = i + ((a : Nat) + 1 : Nat) := by push_cast; ring
      rw [e2]

lemma series_go_foldl (fuel : Nat) (n i sum : Int) (h : (n - i).toNat ≤ fuel) :
    series_go fuel n i sum =
      (List.range (n - i).toNat).foldl (fun s (k : Nat) => add s (square (i + (k : Int)))) sum := by
  induction fuel generalizing i sum with
  | zero =>
      have h0 : (n - i).toNat = 0 := by omega
      rw [h0]
      simp [series_go]
  | succ fuel ih =>
      by_cases hi : i < n
      · have h0 : (n - i).toNat = (n - (i + 1)).toNat + 1 := by omega
        have h1 : (n - (i + 1)).toNat ≤ fuel := by omega
        simp only [series_go, if_pos hi]
        rw [ih (i + 1) (add sum (square i)) h1, h0, List.range_succ_eq_map]
        rw [List.foldl_cons, List.foldl_map]
        have e0 : i + ((0 : Nat) : Int) = i := by push_cast; ring
        rw [e0]
        apply List.foldl_ext
        intro s k _
        have e1 : i + ((k + 1 : Nat) : Int) = (i + 1) + (k : Int) := by push_cast; ring
        rw [e1]
      · have h0 : (n - i).toNat = 0 := by omega
        rw [h0]
        simp [series_go, hi]

lemma compute_series_foldl (n : Int) :
    compute_series n =
      (List.range n.toNat).foldl (fun s (k : Nat) => add s (square (k : Int))) 0 := by
  unfold compute_series
  have h : (n - 0).toNat ≤ n.toNat := by omega
  rw [series_go_foldl n.toNat n 0 0 h]
  have e : (n - 0).toNat = n.toNat := by omega
  rw [e]
  apply List.foldl_ext
  intro s k _
  have e1 : (0 : Int) + (k : Int) = (k : Int) := by ring
  rw [e1]

lemma compute_series_nonpos (n : Int) (h : n ≤ 0) : compute_series n = 0 := by
  rw [compute_series_foldl]
  have e : n.toNat = 0 := by omega
  rw [e]
  simp

/-! ### The product loop: fold characterisation -/

lemma product_go_foldl (fuel : Nat) (n i prod : Int) (h : (n + 1 - i).toNat ≤ fuel) :
    product_go fuel n i prod =
      (List.range (n + 1 - i).toNat).foldl (fun p (k : Nat) => multiply p (i + (k : Int))) prod := by
  induction fuel generalizing i prod with
  | zero =>
      have h0 : (n + 1 - i).toNat = 0 := by omega
      rw [h0]
      simp [product_go]
  | succ fuel ih =>
      by_cases hi : i ≤ n
      · have h0 : (n + 1 - i).toNat = (n + 1 - (i + 1)).toNat + 1 := by omega
        have h1 : (n + 1 - (i + 1)).toNat ≤ fuel := by omega
        simp only [product_go, if_pos hi]
        rw [ih (i + 1) (multiply prod i) h1, h0, List.range_succ_eq_map]
        rw [List.foldl_cons, List.foldl_map]
        have e0 : i + ((0 : Nat) : Int) = i := by push_cast; ring
        rw [e0]
        apply List.foldl_ext
        intro s k _
        have e1 : i + ((k + 1 : Nat) : Int) = (i + 1) + (k : Int) := by push_cast; ring
        rw [e1]
      · have h0 : (n + 1 - i).toNat = 0 := by omega
        rw [h0]
        simp [product_go, hi]

lemma compute_product_foldl (n : Int) :
    compute_product n =
      (List.range n.toNat).foldl (fun p (k : Nat) => multiply p (1 + (k : Int))) 1 := by
  unfold compute_product
  have h : (n + 1 - 1).toNat ≤ n.toNat := by omega
  rw [product_go_foldl n.toNat n 1 1 h]
  have e : (n + 1 - 1).toNat = n.toNat := by omega
  rw [e]

lemma compute_product_nonpos (n : Int) (h : n ≤ 0) : compute_product n = 1 := by
  rw [compute_product_foldl]
  have e : n.toNat = 0 := by omega
  rw [e]
  simp

/-- Chaining form of `series_go_split`, used to evaluate the loop in chunks. -/
lemma series_go_chunk (a b : Nat) (n i sum sum2 : Int) (h : i + (a : Int) ≤ n)
    (hs : series_go a n i sum = sum2) :
    series_go (a + b) n i sum = series_go b n (i + (a : Int)) sum2 := by
  rw [series_go_split a b n i sum h, hs]

lemma compute_series_1000 : compute_series 1000 = 332833500 := by
  have e0 : compute_series 1000 = series_go 1000 1000 0 0 := by
    unfold compute_series
    congr 1
  have s1 : series_go 1000 1000 0 0 = series_go 900 1000 100 328350 := by
    have h := series_go_chunk 100 900 1000 0 0 328350 (by norm_num) (by decide)
    norm_num at h
    exact h
  have s2 : series_go 900 1000 100 328350 = series_go 800 1000 200 2646700 := by
    have h := series_go_chunk 100 800 1000 100 328350 2646700 (by norm_num) (by decide)
    norm_num at h
    exact h
  have s3 : series_go 800 1000 200 2646700 = series_go 700 1000 300 8955050 := by
    have h := series_go_chunk 100 700 1000 200 2646700 8955050 (by norm_num) (by decide)
    norm_num at h
    exact h
  have s4 : series_go 700 1000 300 8955050 = series_go 600 1000 400 21253400 := by
    have h := series_go_chunk 100 600 1000 300 8955050 21253400 (by norm_num) (by decide)
    norm_num at h
    exact h
  have s5 : series_go 600 1000 400 21253400 = series_go 500 1000 500 41541750 := by
    have h := series_go_chunk 100 500 1000 400 21253400 41541750 (by norm_num) (by decide)
    norm_num at h
    exact h
  have s6 : series_go 500 1000 500 41541750 = series_go 400 1000 600 71820100 := by
    have h := series_go_chunk 100 400 1000 500 41541750 71820100 (by norm_num) (by decide)
    norm_num at h
    exact h
  have s7 : series_go 400 1000 600 71820100 = series_go 300 1000 700 114088450 := by
    have h := series_go_chunk 100 300 1000 600 71820100 114088450 (by norm_num) (by decide)
    norm_num at h
    exact h
  have s8 : series_go 300 1000 700 114088450 = series_go 200 1000 800 170346800 := by
    have h := series_go_chunk 100 200 1000 700 114088450 170346800 (by norm_num) (by decide)
    norm_num at h
    exact h
  have s9 : series_go 200 1000 800 170346800 = series_go 100 1000 900 242595150 := by
    have h := series_go_chunk 100 100 1000 800 170346800 242595150 (by norm_num) (by decide)
    norm_num at h
    exact h
  have s10 : series_go 100 1000 900 242595150 = 332833500 := by decide
  rw [e0, s1, s2, s3, s4, s5, s6, s7, s8, s9, s10]

/-! ### The cyclic pair -/

lemma cycle_1_nonpos (x : Int) (h : x ≤ 0) : cycle_1 x = x := by
  rw [cycle_1.eq_def, if_pos h]

lemma cycle_1_step (x : Int) (h : 0 < x) : cycle_1 x = cycle_1 (x - 2) := by
  conv_lhs => rw [cycle_1.eq_def]
  rw [if_neg (by omega), cycle_2.eq_def]
  have e : x - 1 - 1 = x - 2 := by ring
  rw [e]

/-- Closed form of `cycle_1`, by strong induction on the countdown. -/
lemma cycle_1_closed (k : Nat) : ∀ x : Int, x.toNat ≤ k →
    cycle_1 x = if x ≤ 0 then x else if x % 2 = 0 then 0 else -1 := by
  induction k using Nat.strong_induction_on with
  | _ k ih =>
      intro x hx
      by_cases h0 : x ≤ 0
      · rw [cycle_1_nonpos x h0, if_pos h0]
      · push_neg at h0
        rw [cycle_1_step x h0, if_neg (by omega)]
        by_cases h2 : x ≤ 2
        · rw [cycle_1_nonpos (x - 2) (by omega)]
          have hx12 : x = 1 ∨ x = 2 := by omega
          rcases hx12 with h | h <;> subst h <;> norm_num
        · have hk : (x - 2).toNat < k := by omega
          rw [ih (x - 2).toNat hk (x - 2) le_rfl]
          rw [if_neg (by omega)]
          have e : (x - 2) % 2 = x % 2 := by omega
          rw [e]

lemma cycle_1_eq (x : Int) :
    cycle_1 x = if x ≤ 0 then x else if x % 2 = 0 then 0 else -1 :=
  cycle_1_closed x.toNat x le_rfl

lemma cycle_1_nonpos_result (x : Int) : cycle_1 x ≤ 0 := by
  rw [cycle_1_eq]
  split_ifs <;> omega

/-- Adequacy of the fuel semantics: `2 * x.toNat + 2` units of fuel always
reach the base case, and the fuel semantics then agrees with `cycle_1`. -/
lemma cycle1Fuel_adequate (k : Nat) : ∀ x : Int, x.toNat ≤ k →
    cycle1Fuel (2 * k + 2) x = some (cycle_1 x) := by
  induction k using Nat.strong_induction_on with
  | _ k ih =>
      intro x hx
      by_cases h0 : x ≤ 0
      · rw [cycle_1_nonpos x h0]
        have e : 2 * k + 2 = (2 * k + 1) + 1 := by omega
        rw [e]
        simp [cycle1Fuel, h0]
      · push_neg at h0
        rw [cycle_1_step x h0]
        have e : 2 * k + 2 = ((2 * k) + 1) + 1 := by omega
        rw [e]
        simp only [cycle1Fuel, cycle2Fuel, if_neg (not_le.mpr h0)]
        have e3 : x - 1 - 1 = x - 2 := by ring
        have e2 : 2 * k = 2 * (k - 1) + 2 := by omega
        rw [e3, e2]
        exact ih (k - 1) (by omega) (x - 2) (by omega)

/-! ### Evaluation of the dispatcher and of main -/

lemma process_zero (v : Int) : process 0 v = compute_series v := by
  simp [process]

lemma process_one (v : Int) : process 1 v = compute_product v := by
  norm_num [process]

lemma process_other (m v : Int) (h0 : m ≠ 0) (h1 : m ≠ 1) :
    process m v = helper_B v := by
  simp [process, h0, h1]

lemma result1_eq : result1 = 332833500 := by
  unfold result1
  rw [process_zero, compute_series_1000]

lemma result2_eq : result2 = 3628800 := by
  unfold result2
  rw [process_one]
  decide

lemma result3_eq : result3 = 40 := by
  unfold result3
  rw [process_other 2 5 (by norm_num) (by norm_num)]
  decide

lemma main_output_eq : main_output = "332833500 3628800 40\n" := by
  unfold main_output
  rw [result1_eq, result2_eq, result3_eq]
  decide

/-! ### The claims -/

/-- C1: Running the program (`main`) computes `result1 = process(0, 1000) = 332833500`,
`result2 = process(1, 10) = 3628800`, `result3 = process(2, 5) = 40`, prints exactly
the line `332833500 3628800 40` followed by a newline, and returns exit status 0. -/
theorem claim_C1 :
    result1 = process 0 1000 ∧ process 0 1000 = 332833500 ∧
    result2 = process 1 10 ∧ process 1 10 = 3628800 ∧
    result3 = process 2 5 ∧ process 2 5 = 40 ∧
    main_output = "332833500 3628800 40\n" ∧ main_exit = 0 := by
  refine ⟨rfl, ?_, rfl, ?_, rfl, ?_, main_output_eq, rfl⟩
  · rw [process_zero, compute_series_1000]
  · rw [process_one]
    decide
  · rw [process_other 2 5 (by norm_num) (by norm_num)]
    decide

/-- C2: For every pair of ints (mode, value), `process` dispatches to
`compute_series` when mode = 0, to `compute_product` when mode = 1, and to
`helper_B` for every other mode (including negative ones); no error is ever
raised for an unrecognized mode. -/
theorem claim_C2 (mode value : Int) :
    (mode = 0 → process mode value = compute_series value) ∧
    (mode = 1 → process mode value = compute_product value) ∧
    (mode ≠ 0 → mode ≠ 1 → process mode value = helper_B value) := by
  refine ⟨?_, ?_, ?_⟩
  · intro h
    rw [h, process_zero]
  · intro h
    rw [h, process_one]
  · intro h0 h1
    exact process_other mode value h0 h1

/-- Witness for C2 at the catch-all branch (mode = 2). -/
theorem claim_C2_witness : process 2 5 = helper_B 5 :=
  (claim_C2 2 5).2.2 (by decide) (by decide)

/-- C3: `compute_series(n)` returns 0 when n ≤ 0, and otherwise the left-to-right
iterative sum of `square(i)` for i = 0 .. n-1; in particular
`compute_series(0) = 0`, `compute_series(1) = 0`, `compute_series(2) = 1`,
and `compute_series(1000) = 332833500`. -/
theorem claim_C3 (n : Int) :
    (n ≤ 0 → compute_series n = 0) ∧
    compute_series n =
      (List.range n.toNat).foldl (fun s (k : Nat) => add s (square (k : Int))) 0 ∧
    compute_series 0 = 0 ∧ compute_series 1 = 0 ∧ compute_series 2 = 1 ∧
    compute_series 1000 = 332833500 :=
  ⟨compute_series_nonpos n, compute_series_foldl n, by decide, by decide, by decide,
    compute_series_1000⟩

/-- Witness for C3 at n = -7 (discharging the hypothesis n ≤ 0). -/
theorem claim_C3_witness : compute_series (-7) = 0 :=
  (claim_C3 (-7)).1 (by decide)

/-- C4: `compute_product(n)` returns 1 when n ≤ 0, and otherwise the left-to-right
iterative product of 1 .. n accumulated into a running product starting at 1;
in particular `compute_product(0) = 1`, `compute_product(1) = 1`, and
`compute_product(10) = 3628800`. -/
theorem claim_C4 (n : Int) :
    (n ≤ 0 → compute_product n = 1) ∧
    compute_product n =
      (List.range n.toNat).foldl (fun p (k : Nat) => multiply p (1 + (k : Int))) 1 ∧
    compute_product 0 = 1 ∧ compute_product 1 = 1 ∧ compute_product 10 = 3628800 :=
  ⟨compute_product_nonpos n, compute_product_foldl n, by decide, by decide, by decide⟩

/-- Witness for C4 at n = -7 (discharging the hypothesis n ≤ 0). -/
theorem claim_C4_witness : compute_product (-7) = 1 :=
  (claim_C4 (-7)).1 (by decide)

/-- C5: `helper_A(x) = x + 10` (exactly so whenever x + 10 is in 32-bit range,
and modulo the 32-bit wrap in general) and
`helper_B(x) = helper_A(x) + square(x) = (x + 10) + x²` (modulo the wrap);
in particular `helper_B(5) = 40` and `helper_B(0) = 10`. -/
theorem claim_C5 (x : Int) :
    helper_A x = wrap32 (x + 10) ∧
    (-2147483648 ≤ x + 10 → x + 10 < 2147483648 → helper_A x = x + 10) ∧
    helper_B x = wrap32 (x + 10 + x * x) ∧
    helper_B 5 = 40 ∧ helper_B 0 = 10 := by
  refine ⟨rfl, ?_, ?_, by decide, by decide⟩
  · intro h1 h2
    exact wrap32_eq_self (x + 10) h1 h2
  · show wrap32 (helper_A x + square x) = wrap32 (x + 10 + x * x)
    unfold helper_A add square multiply
    rw [wrap32_add_wrap32]

/-- Witness for C5 at x = 5 (discharging the two range hypotheses). -/
theorem claim_C5_witness : helper_A 5 = 5 + 10 :=
  (claim_C5 5).2.1 (by decide) (by decide)

/-- C6: For every int x the mutually recursive pair `cycle_1`/`cycle_2`
terminates: some finite fuel suffices for the step-counting semantics to
reach the base case, and its value agrees with the recursive function. -/
theorem claim_C6 (x : Int) :
    ∃ fuel : Nat, cycle1Fuel fuel x = some (cycle_1 x) :=
  ⟨2 * x.toNat + 2, cycle1Fuel_adequate x.toNat x le_rfl⟩

/-- C7: For every int x with x ≤ 0, `cycle_1(x)` returns x immediately; and for
every int x the returned value is non-positive (the non-positive value reached
by the countdown, propagated back unchanged). -/
theorem claim_C7 (x : Int) :
    (x ≤ 0 → cycle_1 x = x) ∧ cycle_1 x ≤ 0 :=
  ⟨cycle_1_nonpos x, cycle_1_nonpos_result x⟩

/-- Witness for C7 at x = -3 (discharging the hypothesis x ≤ 0). -/
theorem claim_C7_witness : cycle_1 (-3) = -3 :=
  (claim_C7 (-3)).1 (by decide)

/-- C8: `add(a, b)` returns a + b and `multiply(a, b)` returns a * b under
wrapping twos-complement 32-bit semantics (the results are congruent to the
exact values modulo 2^32 and lie in the signed 32-bit range), and
`square(x) = multiply(x, x)`. -/
theorem claim_C8 (a b x : Int) :
    add a b = wrap32 (a + b) ∧
    multiply a b = wrap32 (a * b) ∧
    square x = multiply x x ∧
    -2147483648 ≤ add a b ∧ add a b < 2147483648 ∧
    (add a b - (a + b)) % 4294967296 = 0 ∧
    -2147483648 ≤ multiply a b ∧ multiply a b < 2147483648 ∧
    (multiply a b - a * b) % 4294967296 = 0 :=
  ⟨rfl, rfl, rfl, wrap32_lb _, wrap32_ub _, wrap32_sub_emod _,
    wrap32_lb _, wrap32_ub _, wrap32_sub_emod _⟩

/-- C9: For every int n ≥ 0, `compute_series` satisfies the recurrence
`compute_series(n + 1) = add(compute_series(n), square(n))`. -/
theorem claim_C9 (n : Int) (h : 0 ≤ n) :
    compute_series (n + 1) = add (compute_series n) (square n) := by
  rw [compute_series_foldl, compute_series_foldl]
  have e : (n + 1).toNat = n.toNat + 1 := by omega
  rw [e, List.range_succ, List.foldl_append]
  simp only [List.foldl_cons, List.foldl_nil]
  rw [Int.toNat_of_nonneg h]

/-- Witness for C9 at n = 3 (discharging the hypothesis 0 ≤ n). -/
theorem claim_C9_witness :
    compute_series (3 + 1) = add (compute_series 3) (square 3) :=
  claim_C9 3 (by decide)

/-- C10: For every int x > 0, `cycle_1(x)` returns 0 when x is even and -1 when
x is odd; consequently `cycle_1(cycle_1(x)) = cycle_1(x)` for every int x. -/
theorem claim_C10 (x : Int) :
    (0 < x → cycle_1 x = if x % 2 = 0 then 0 else -1) ∧
    cycle_1 (cycle_1 x) = cycle_1 x := by
  constructor
  · intro h
    rw [cycle_1_eq x, if_neg (by omega)]
  · rw [cycle_1_nonpos (cycle_1 x) (cycle_1_nonpos_result x)]

/-- Witness for C10 at x = 5 (discharging the hypothesis 0 < x). -/
theorem claim_C10_witness :
    cycle_1 5 = if (5 : Int) % 2 = 0 then 0 else -1 :=
  (claim_C10 5).1 (by decide)

end SSCA
